import Mathlib

/-!
Verification of the wing-segmentation run-orchestration layer.

Shallow embedding of `wing_segmenter` (metadata_manager.py, segmenter.py,
path_manager.py, image_processor.py, run_scanner.py, cli.py).  Pure functions
are translated directly; filesystem effects are made explicit (walk listings
are inputs, directory creations and file writes are outputs); hash digests are
modelled by the exact byte/string stream fed to the hash, so that stream
equality corresponds to digest equality of the collision-free hash.
-/

namespace WingSeg

/-! ## JSON values (the shapes used by `parameters_for_hash`)

`segmenter.py` builds a flat dict whose values are strings, ints, bools,
`None`, or lists of ints; `json.dumps(..., sort_keys=True)` serializes it with
keys sorted.  We model the value space and the sorted-key serialization. -/

/-- JSON values appearing in the parameter dictionaries of `segmenter.py`. -/
inductive Json where
  | null : Json
  | bool (b : Bool) : Json
  | num (n : Int) : Json
  | str (s : String) : Json
  | arr (xs : List Json) : Json

/-- Serialization of a single JSON value, as `json.dumps` renders it. -/
def dumpVal : Json → String
  | .null => "null"
  | .bool b => cond b "true" "false"
  | .num n => toString n
  | .str s => "\x22" ++ s ++ "\x22"
  | .arr xs => "[" ++ String.intercalate ", " (xs.attach.map fun x => dumpVal x.1) ++ "]"
decreasing_by
  simp_wf
  have := List.sizeOf_lt_of_mem x.2
  omega

/-- Key order used by `sort_keys=True`: compare entries by their key. -/
def keyLe {α : Type} (a b : String × α) : Prop := a.1 ≤ b.1

instance {α : Type} : DecidableRel (keyLe (α := α)) :=
  fun a b => inferInstanceAs (Decidable (a.1 ≤ b.1))

instance {α : Type} : IsTotal (String × α) keyLe :=
  ⟨fun a b => le_total a.1 b.1⟩

instance {α : Type} : IsTrans (String × α) keyLe :=
  ⟨fun _ _ _ h₁ h₂ => le_trans h₁ h₂⟩

/-- Sorting an association list by key, the effect of `sort_keys=True`
(respectively of Python's `sorted` in `get_dataset_hash`). -/
def sortByKey {α : Type} (l : List (String × α)) : List (String × α) :=
  List.insertionSort keyLe l

/-- `json.dumps(parameters, sort_keys=True)` for a flat string-keyed dict. -/
def json_dumps_sorted (parameters : List (String × Json)) : String :=
  "\x7b" ++ String.intercalate ", "
      ((sortByKey parameters).map fun kv => dumpVal (.str kv.1) ++ ": " ++ dumpVal kv.2)
    ++ "\x7d"

/-- A name-based (version-5) UUID is fully determined by the namespace UUID and
the name string hashed; we model it by that determining pair. -/
structure UUIDv5 where
  ns : String
  name : String
deriving DecidableEq

/-- `metadata_manager.NAMESPACE_UUID = uuid.UUID('00000000-0000-0000-0000-000000000000')`. -/
def NAMESPACE_UUID : String := "00000000-0000-0000-0000-000000000000"

/-- `uuid.uuid5(namespace, name)`. -/
def uuid5 (ns : String) (name : String) : UUIDv5 := ⟨ns, name⟩

/-- `metadata_manager.generate_uuid`: serialize the parameters to a sorted-key
JSON string and derive a version-5 UUID under the fixed namespace constant. -/
def generate_uuid (parameters : List (String × Json)) : UUIDv5 :=
  uuid5 NAMESPACE_UUID (json_dumps_sorted parameters)

/-! ### Sorted association lists with distinct keys are canonical -/

/-- Two key-sorted association lists with the same entries and duplicate-free
keys are equal.  This is what makes `sort_keys=True` canonical. -/
theorem eq_of_perm_sorted_nodup_keys {α : Type} :
    ∀ {l₁ l₂ : List (String × α)}, l₁.Perm l₂ →
      l₁.Sorted keyLe → l₂.Sorted keyLe → (l₁.map Prod.fst).Nodup → l₁ = l₂ := by
  intro l₁
  induction l₁ with
  | nil =>
    intro l₂ hp _ _ _
    exact (List.Perm.nil_eq hp).symm ▸ rfl
  | cons a t ih =>
    intro l₂ hp hs₁ hs₂ hn
    cases l₂ with
    | nil => exact absurd (List.Perm.nil_eq hp.symm).symm (List.cons_ne_nil a t)
    | cons b t₂ =>
      have hab : a = b := by
        have hamem : a ∈ b :: t₂ := hp.mem_iff.mp (List.mem_cons_self a t)
        rcases List.mem_cons.mp hamem with h | h
        · exact h
        · -- `a` sits in the tail of `l₂`; compare keys to derive a contradiction.
          have hbmem : b ∈ a :: t := hp.symm.mem_iff.mp (List.mem_cons_self b t₂)
          rcases List.mem_cons.mp hbmem with h' | h'
          · exact h'.symm
          · have h₁ : a.1 ≤ b.1 := List.rel_of_sorted_cons hs₁ b h'
            have h₂ : b.1 ≤ a.1 := List.rel_of_sorted_cons hs₂ a h
            have hkey : a.1 = b.1 := le_antisymm h₁ h₂
            have hnk : a.1 ∉ t.map Prod.fst := (List.nodup_cons.mp hn).1
            exact absurd (hkey ▸ List.mem_map_of_mem Prod.fst h') hnk
      subst hab
      have htp : t.Perm t₂ := hp.cons_inv
      have := ih htp (List.sorted_cons.mp hs₁).2 (List.sorted_cons.mp hs₂).2
        (List.nodup_cons.mp hn).2
      rw [this]

/-- Sorting by key is invariant under permutation when keys are distinct. -/
theorem sortByKey_perm_invariant {α : Type} {l₁ l₂ : List (String × α)}
    (hp : l₁.Perm l₂) (hn : (l₁.map Prod.fst).Nodup) :
    sortByKey l₁ = sortByKey l₂ := by
  refine eq_of_perm_sorted_nodup_keys ?_ ?_ ?_ ?_
  · exact (List.perm_insertionSort keyLe l₁).trans (hp.trans (List.perm_insertionSort keyLe l₂).symm)
  · exact List.sorted_insertionSort keyLe l₁
  · exact List.sorted_insertionSort keyLe l₂
  · exact (List.Perm.map Prod.fst (List.perm_insertionSort keyLe l₁)).nodup_iff.mpr hn

/-- C1.  The run identifier is deterministic: any two parameter dictionaries
with the same key-value entries (the same dict, whatever its insertion order)
produce byte-identical sorted-key serializations and hence the identical
version-5 UUID under the fixed constant namespace. -/
theorem c1_generate_uuid_deterministic {p₁ p₂ : List (String × Json)}
    (hp : p₁.Perm p₂) (hn : (p₁.map Prod.fst).Nodup) :
    generate_uuid p₁ = generate_uuid p₂ ∧
      generate_uuid p₁ = uuid5 NAMESPACE_UUID (json_dumps_sorted p₁) := by
  refine ⟨?_, rfl⟩
  unfold generate_uuid uuid5 json_dumps_sorted
  rw [sortByKey_perm_invariant hp hn]

/-- Concrete witness for C1: the same two-entry dict given in either insertion
order yields the identical identifier. -/
theorem c1_witness :
    ([(("size" : String), Json.arr [Json.num 256]), (("resize_mode" : String), Json.str "pad")].Perm
      [(("resize_mode" : String), Json.str "pad"), (("size" : String), Json.arr [Json.num 256])] ∧
     ((([(("size" : String), Json.arr [Json.num 256]),
         (("resize_mode" : String), Json.str "pad")]).map Prod.fst).Nodup)) ∧
    (generate_uuid [(("size" : String), Json.arr [Json.num 256]),
        (("resize_mode" : String), Json.str "pad")] =
      generate_uuid [(("resize_mode" : String), Json.str "pad"),
        (("size" : String), Json.arr [Json.num 256])] ∧
     generate_uuid [(("size" : String), Json.arr [Json.num 256]),
        (("resize_mode" : String), Json.str "pad")] =
      uuid5 NAMESPACE_UUID (json_dumps_sorted
        [(("size" : String), Json.arr [Json.num 256]),
         (("resize_mode" : String), Json.str "pad")])) :=
  ⟨⟨List.Perm.swap _ _ _, by decide⟩,
   c1_generate_uuid_deterministic (List.Perm.swap _ _ _) (by decide)⟩

/-! ## Dataset fingerprint (`metadata_manager.get_dataset_hash`)

The MD5 state is modelled by the exact stream of strings passed to
`hash_md5.update`, in order; two streams are equal iff the resulting digests
of the collision-free hash are equal. -/

/-- One `os.walk` triple as consumed by `get_dataset_hash`: the directory
`root` and the names (with byte sizes) of the plain files inside it, in the
order the operating system lists them.  `os.walk` yields directories in the
operating system's listing order; the code does not reorder them. -/
structure WalkEntry where
  root : String
  files : List (String × Nat)

/-- `os.path.join` for the POSIX paths appearing here. -/
def path_join (a b : String) : String := a ++ "/" ++ b

/-- `metadata_manager.get_dataset_hash`: for each walked directory, the files
are sorted by name (`sorted(files)`) and each file contributes
`os.path.join(root, file)` — the full joined path, not the path relative to
the dataset root — followed by its decimal byte size. -/
def get_dataset_hash (walk : List WalkEntry) : List String :=
  walk.flatMap fun e =>
    (sortByKey e.files).flatMap fun fsz => [path_join e.root fsz.1, toString fsz.2]

/-- C2 counterexample.  Two datasets with identical relative paths and byte
sizes, rooted at different locations, have different fingerprints: the digest
folds the full joined path, so the root's location changes the stream. -/
theorem c2_counterexample :
    get_dataset_hash [⟨"/home/a/wings", [("x.png", 5)]⟩] ≠
      get_dataset_hash [⟨"/home/b/wings", [("x.png", 5)]⟩] := by decide

/-- C2 (amended).  The fingerprint walks directories in the order the
filesystem walk reports them, sorts the files within each directory by name,
and folds each file's full joined path together with its byte size into the
digest; it is therefore invariant under the OS listing order of the files of
each directory (names being distinct within a directory), though not under
relocation of the dataset root. -/
theorem c2_fingerprint_amended {w₁ w₂ : List WalkEntry}
    (h : List.Forall₂ (fun (e₁ e₂ : WalkEntry) => e₁.root = e₂.root ∧ e₁.files.Perm e₂.files ∧
          (e₁.files.map Prod.fst).Nodup) w₁ w₂) :
    get_dataset_hash w₁ = get_dataset_hash w₂ := by
  induction h with
  | nil => rfl
  | cons he _ ih =>
    unfold get_dataset_hash at ih ⊢
    simp only [List.flatMap_cons]
    rw [ih, he.1, sortByKey_perm_invariant he.2.1 he.2.2]

/-- Concrete witness for C2 (amended): the same directory listed in two
different orders fingerprints identically. -/
theorem c2_witness :
    (List.Forall₂ (fun (e₁ e₂ : WalkEntry) => e₁.root = e₂.root ∧ e₁.files.Perm e₂.files ∧
        (e₁.files.map Prod.fst).Nodup)
      [⟨"/d", [("b.png", 2), ("a.png", 1)]⟩] [⟨"/d", [("a.png", 1), ("b.png", 2)]⟩]) ∧
    get_dataset_hash [⟨"/d", [("b.png", 2), ("a.png", 1)]⟩] =
      get_dataset_hash [⟨"/d", [("a.png", 1), ("b.png", 2)]⟩] :=
  ⟨List.Forall₂.cons ⟨rfl, List.Perm.swap _ _ _, by decide⟩ List.Forall₂.nil,
   c2_fingerprint_amended
     (List.Forall₂.cons ⟨rfl, List.Perm.swap _ _ _, by decide⟩ List.Forall₂.nil)⟩

/-! ## Output directory layout (`path_manager.setup_paths`) -/

/-- The fields of the `Segmenter` read by `setup_paths` when resolving the
output placement and creating directories. -/
structure SetupConfig where
  custom_output_dir : Option String
  output_base_dir : Option String
  dataset_path : String
  run_uuid : String
  save_intermediates : Bool
  remove_background : Bool
  size : Option (List Nat)

/-- One `os.makedirs(path, exist_ok=...)` call. -/
structure MkdirCall where
  path : String
  exist_ok : Bool
deriving DecidableEq

/-- Python's `rstrip('/\\')`. -/
def rstripSlashes (s : String) : String :=
  ⟨(s.data.reverse.dropWhile fun c => c = '/' || c = '\\').reverse⟩

/-- `os.path.basename` on a POSIX path. -/
def basename (s : String) : String :=
  ⟨(s.data.reverse.takeWhile (· ≠ '/')).reverse⟩

/-- `os.path.dirname` on a POSIX path. -/
def dirname (s : String) : String :=
  ⟨((s.data.reverse.dropWhile (· ≠ '/')).drop 1).reverse⟩

/-- The output directory `setup_paths` resolves: a verbatim custom directory
takes priority, then `<base>/<datasetName>_<uuid>`, then the same name next to
the dataset.  Paths are assumed already absolute (`os.path.abspath` is the
identity on them). -/
def resolve_output_dir (cfg : SetupConfig) : String :=
  match cfg.custom_output_dir with
  | some custom => custom
  | none =>
    let dataset_name := basename (rstripSlashes cfg.dataset_path)
    let output_dir_name := dataset_name ++ "_" ++ cfg.run_uuid
    match cfg.output_base_dir with
    | some base => path_join base output_dir_name
    | none => path_join (dirname cfg.dataset_path) output_dir_name

/-- The sequence of `os.makedirs` calls `setup_paths` issues, in program
order: the root and the five fixed subdirectories unconditionally, the two
background-removal directories when `remove_background and save_intermediates`,
and `resized/` once more when `save_intermediates and size`. -/
def setup_mkdir_calls (output_dir : String) (remove_background save_intermediates : Bool)
    (has_size : Bool) : List MkdirCall :=
  [⟨output_dir, true⟩,
   ⟨path_join output_dir "resized", true⟩,
   ⟨path_join output_dir "masks", true⟩,
   ⟨path_join output_dir "seg_viz", true⟩,
   ⟨path_join output_dir "crops", true⟩,
   ⟨path_join output_dir "logs", true⟩] ++
  (if remove_background && save_intermediates then
    [⟨path_join output_dir "crops_bkgd_removed", true⟩,
     ⟨path_join output_dir "full_bkgd_removed", true⟩]
   else []) ++
  (if save_intermediates && has_size then [⟨path_join output_dir "resized", true⟩] else [])

/-- `path_manager.setup_paths`: the resolved output directory together with
the `os.makedirs` calls issued. -/
def setup_paths (cfg : SetupConfig) : String × List MkdirCall :=
  (resolve_output_dir cfg,
   setup_mkdir_calls (resolve_output_dir cfg) cfg.remove_background cfg.save_intermediates
     cfg.size.isSome)

@[simp] theorem path_join_ne_self (a b : String) : ¬(path_join a b = a) := by
  intro h
  have hl := congrArg String.length h
  have h1 : ("/" : String).length = 1 := rfl
  simp only [path_join, String.length_append, h1] at hl
  omega

@[simp] theorem path_join_self_ne (a b : String) : ¬(a = path_join a b) :=
  fun h => path_join_ne_self a b h.symm

@[simp] theorem path_join_right_inj {a b c : String} :
    path_join a b = path_join a c ↔ b = c := by
  constructor
  · intro h
    have hd := congrArg String.data h
    simp only [path_join, String.data_append] at hd
    have := List.append_cancel_left hd
    exact congrArg String.mk this
  · intro h; rw [h]

/-- C4 counterexample.  With every optional feature disabled (no intermediate
saving, no resize, no background removal), `setup_paths` still creates the
`resized/` subdirectory (and likewise `seg_viz/` and `crops/`), refuting the
claimed "created if and only if the feature is enabled". -/
theorem c4_counterexample :
    ("/out/resized" ∈ ((setup_paths ⟨some "/out", none, "/data/wings", "u",
        false, false, none⟩).2.map MkdirCall.path)) ∧
    (SetupConfig.save_intermediates ⟨some "/out", none, "/data/wings", "u",
        false, false, none⟩ = false) := by
  constructor
  · simp only [setup_paths, setup_mkdir_calls, resolve_output_dir]
    decide
  · rfl

/-- C4 (amended).  `setup_paths` always creates the run root plus `logs/`,
`masks/`, `resized/`, `seg_viz/` and `crops/`; it creates
`crops_bkgd_removed/` and `full_bkgd_removed/` together, exactly when
background removal of crops and intermediate saving are both enabled; every
creation passes `exist_ok=True`, so pre-existing directories are not an
error. -/
theorem c4_setup_paths_amended (cfg : SetupConfig) :
    (setup_paths cfg).1 ∈ ((setup_paths cfg).2.map MkdirCall.path) ∧
    path_join (setup_paths cfg).1 "logs" ∈ ((setup_paths cfg).2.map MkdirCall.path) ∧
    path_join (setup_paths cfg).1 "masks" ∈ ((setup_paths cfg).2.map MkdirCall.path) ∧
    path_join (setup_paths cfg).1 "resized" ∈ ((setup_paths cfg).2.map MkdirCall.path) ∧
    path_join (setup_paths cfg).1 "seg_viz" ∈ ((setup_paths cfg).2.map MkdirCall.path) ∧
    path_join (setup_paths cfg).1 "crops" ∈ ((setup_paths cfg).2.map MkdirCall.path) ∧
    (path_join (setup_paths cfg).1 "crops_bkgd_removed" ∈
        ((setup_paths cfg).2.map MkdirCall.path) ↔
      (cfg.remove_background && cfg.save_intermediates) = true) ∧
    (path_join (setup_paths cfg).1 "full_bkgd_removed" ∈
        ((setup_paths cfg).2.map MkdirCall.path) ↔
      (cfg.remove_background && cfg.save_intermediates) = true) ∧
    (∀ c ∈ (setup_paths cfg).2, c.exist_ok = true) := by
  obtain ⟨co, ob, dp, ru, si, rb, sz⟩ := cfg
  cases si <;> cases rb <;> cases hsz : sz.isSome <;>
    simp [setup_paths, setup_mkdir_calls, hsz]

/-! ## Orchestration (`segmenter.Segmenter.process_dataset`, `cli.main`)

The per-image pipeline (`image_processor.process_image`) is driven inside a
worker; its observable interface toward the orchestrator is: it may return
normally without appending a row (unreadable image, skipped with a warning),
return normally after appending one row to `segmentation_info`, or raise
`ImageProcessingError` — and the raise can happen before or after the row
append, since the whole body sits in one `try`.  Rows are modelled in
submission order; the `as_completed` completion order only permutes them and
is irrelevant to the counting claims below. -/

/-- Modelled from the spec: `wing_segmenter.constants.CLASSES` is not under
`src/`.  Spec §3: a fixed vocabulary of 11 classes, id 0 = background,
disjoint ids 1..10. -/
def CLASSES : List (Nat × String) :=
  [(0, "background"), (1, "class_1"), (2, "class_2"), (3, "class_3"), (4, "class_4"),
   (5, "class_5"), (6, "class_6"), (7, "class_7"), (8, "class_8"), (9, "class_9"),
   (10, "class_10")]

/-- One row of `segmentation_info`: the image path plus one 0/1 flag per class
of the fixed vocabulary. -/
structure SegRow where
  image : String
  flags : List Nat
deriving DecidableEq

/-- `metadata_manager.update_segmentation_info`: append one row with a `1`
for every vocabulary class present and `0` otherwise. -/
def update_segmentation_info (segmentation_info : List SegRow) (image_path : String)
    (classes_present : List String) : List SegRow :=
  segmentation_info ++
    [⟨image_path, CLASSES.map fun c => if c.2 ∈ classes_present then 1 else 0⟩]

/-- The metadata fields read or written by `process_dataset` and displayed by
`run_scanner` (`dataset.num_images`, `run_status.*`, and the
`run_parameters` entries the scanner tabulates). -/
structure Metadata where
  num_images : Nat
  completed : Bool
  errors : Option String
  size : Option (List Nat)
  interpolation : Option String
  save_intermediates : Bool
  visualize_segmentation : Bool
deriving DecidableEq

/-- Observable outcome of one per-image task (`process_image`). -/
inductive ImageOutcome where
  | skipped : ImageOutcome
  | success (classes_present : List String) : ImageOutcome
  | failBeforeRecord : ImageOutcome
  | failAfterRecord (classes_present : List String) : ImageOutcome
deriving DecidableEq

/-- Whether the task appended a row to `segmentation_info`. -/
def recordsRow : ImageOutcome → Bool
  | .success _ => true
  | .failAfterRecord _ => true
  | _ => false

/-- Whether the task raised `ImageProcessingError`. -/
def raisesError : ImageOutcome → Bool
  | .failBeforeRecord => true
  | .failAfterRecord _ => true
  | _ => false

/-- The classes the task recorded, if it appended a row. -/
def recordedClasses : ImageOutcome → Option (List String)
  | .success cs => some cs
  | .failAfterRecord cs => some cs
  | _ => none

/-- `('.jpg', '.jpeg', '.png', '.tif', '.tiff', '.bmp')`. -/
def valid_extensions : List String := [".jpg", ".jpeg", ".png", ".tif", ".tiff", ".bmp"]

/-- Python's `str.lower`, character-wise over the string's characters. -/
def str_lower (s : String) : String := String.mk (s.data.map Char.toLower)

/-- `str.endswith`: the suffix's characters close the string. -/
def str_endsWith (s suffix : String) : Bool :=
  List.isPrefixOf suffix.data.reverse s.data.reverse

/-- `file.lower().endswith(valid_extensions)`. -/
def is_valid_image (file : String) : Bool :=
  valid_extensions.any fun ext => str_endsWith (str_lower file) ext

/-- The image-discovery loop of `process_dataset`: walk the dataset, keep the
files with an accepted extension, joined to their directory, in walk order. -/
def discover_images (walk : List (String × List String)) : List String :=
  walk.flatMap fun e => (e.2.filter is_valid_image).map (path_join e.1)

/-- One step of the pool-drain loop: fold a task's outcome into the
accumulated `(segmentation_info, errors_occurred)` state. -/
def drain_step (acc : List SegRow × Bool) (img : String) (oc : ImageOutcome) :
    List SegRow × Bool :=
  match oc with
  | .skipped => acc
  | .success cs => (update_segmentation_info acc.1 img cs, acc.2)
  | .failBeforeRecord => (acc.1, true)
  | .failAfterRecord cs => (update_segmentation_info acc.1 img cs, true)

/-- The `as_completed` drain loop: every submitted task is consumed, each
`ImageProcessingError` is caught and only flips `errors_occurred`. -/
def drain_pool_from (acc : List SegRow × Bool) :
    List String → (String → ImageOutcome) → List SegRow × Bool
  | [], _ => acc
  | img :: rest, outcome => drain_pool_from (drain_step acc img (outcome img)) rest outcome

def drain_pool (images : List String) (outcome : String → ImageOutcome) :
    List SegRow × Bool :=
  drain_pool_from ([], false) images outcome

/-- The run parameters `process_dataset` consults (beyond those already fixed
in the metadata it writes). -/
structure RunParams where
  force : Bool
  size : Option (List Nat)
  interpolation : Option String
  save_intermediates : Bool
  visualize_segmentation : Bool

/-- `"One or more images failed during processing."` -/
def error_msg : String := "One or more images failed during processing."

/-- The filesystem-visible effects of one `process_dataset` call, plus its
return value. -/
structure RunResult where
  metadata_writes : List Metadata
  csv : Option (List SegRow)
  processed : List String
  errors_occurred : Bool
deriving DecidableEq

/-- `Segmenter.process_dataset`: discover images; return early (flagging an
error) when none are found; skip when a completed descriptor exists and
`force` is unset; otherwise write the initial descriptor, drain the pool,
export the segmentation table when non-empty, and write the final
descriptor. -/
def process_dataset (params : RunParams) (existing : Option Metadata)
    (walk : List (String × List String)) (outcome : String → ImageOutcome) : RunResult :=
  let image_paths := discover_images walk
  if image_paths.isEmpty then
    { metadata_writes := [], csv := none, processed := [], errors_occurred := true }
  else if (match existing, params.force with
           | some m, false => m.completed
           | _, _ => false) then
    { metadata_writes := [], csv := none, processed := [], errors_occurred := false }
  else
    let initial : Metadata :=
      { num_images := image_paths.length, completed := false, errors := none,
        size := params.size,
        interpolation := if params.size.isSome then params.interpolation else none,
        save_intermediates := params.save_intermediates,
        visualize_segmentation := params.visualize_segmentation }
    let res := drain_pool image_paths outcome
    let final : Metadata :=
      { initial with completed := !res.2,
                     errors := if res.2 then some error_msg else none }
    { metadata_writes := [initial, final],
      csv := if res.1.isEmpty then none else some res.1,
      processed := image_paths,
      errors_occurred := res.2 }

/-- The attribute names `cli.main`'s `segment` subparser defines on the
parsed `args` namespace: the `dest` of each `add_argument` in cli.py, plus
the subcommand's `dest` `command`. -/
def segment_parser_attributes : List String :=
  ["command", "dataset", "size", "resize_mode", "padding_color", "interpolation",
   "bbox_padding", "outputs_base_dir", "custom_output_dir", "sam_model", "yolo_model",
   "device", "visualize_segmentation", "crop_by_class", "force",
   "remove_crops_background", "remove_full_background", "background_color"]

/-- The `config.<attr>` reads `Segmenter.__init__` performs, in source order
(segmenter.py lines 24-39, then 58-59 inside `parameters_for_hash`). -/
def segmenter_init_reads : List String :=
  ["device", "dataset", "size", "resize_mode", "padding_color", "interpolation",
   "num_workers", "save_intermediates", "visualize_segmentation", "force",
   "crop_by_class", "remove_background", "remove_bg_full", "background_color",
   "output_dir", "sam_model", "yolo_model"]

/-- The first attribute `Segmenter.__init__` reads that the `segment`
namespace never defines — where the constructor raises `AttributeError`. -/
def segmenter_init_first_missing : Option String :=
  segmenter_init_reads.find? fun a => !(segment_parser_attributes.contains a)

/-- `metadata_manager.generate_uuid` is declared with one parameter. -/
def generate_uuid_param_count : Nat := 1

/-- `Segmenter.__init__` (segmenter.py line 75) calls `generate_uuid` with
two positional arguments. -/
def segmenter_init_uuid_call_args : Nat := 2

/-- `Segmenter(args)` as an exception model: the first undefined attribute
read raises `AttributeError`; were every attribute defined, the
`generate_uuid` call on line 75 would still raise `TypeError` on its arity
before `setup_paths` or model loading. -/
def segmenter_init_result : Except String Unit :=
  match segmenter_init_first_missing with
  | some attr => .error ("AttributeError: Namespace object has no attribute " ++ attr)
  | none =>
    if segmenter_init_uuid_call_args ≠ generate_uuid_param_count then
      .error "TypeError: generate_uuid takes 1 positional argument but 2 were given"
    else .ok ()

/-- Termination of `cli.main`'s `segment` branch: an exception escaping
`main` (it installs no handler) makes the interpreter exit non-zero; a
normal return exits 0. -/
inductive CliOutcome where
  | raised (message : String) : CliOutcome
  | returned (exit_code : Nat) (result : RunResult) : CliOutcome

/-- `cli.main`, `segment` branch (cli.py lines 116-120): construct the
`Segmenter` — whose `__init__` raises before any scanning — then call
`process_dataset`, discarding its returned `errors_occurred` flag and never
calling `sys.exit`, so a (hypothetical) normal return exits 0. -/
def cli_segment_main (params : RunParams) (existing : Option Metadata)
    (walk : List (String × List String)) (outcome : String → ImageOutcome) : CliOutcome :=
  match segmenter_init_result with
  | .error e => .raised e
  | .ok _ => .returned 0 (process_dataset params existing walk outcome)

/-- C3.  When a metadata descriptor exists at the run's canonical path with
`completed=true` and `force` is not set, `process_dataset` returns having
processed no image, written no metadata, and exported no segmentation table —
a strict no-op skip. -/
theorem c3_skip_completed (params : RunParams) (m : Metadata)
    (walk : List (String × List String)) (outcome : String → ImageOutcome)
    (hcomp : m.completed = true) (hforce : params.force = false) :
    (process_dataset params (some m) walk outcome).processed = [] ∧
    (process_dataset params (some m) walk outcome).metadata_writes = [] ∧
    (process_dataset params (some m) walk outcome).csv = none := by
  unfold process_dataset
  by_cases he : (discover_images walk).isEmpty
  · simp [he]
  · simp [he, hforce, hcomp]

/-- Concrete witness for C3: a completed prior descriptor and `force=false`
yield a run with no processing and no writes. -/
theorem c3_witness :
    ((Metadata.mk 3 true none none none false false).completed = true ∧
      (RunParams.mk false none (some "area") false false).force = false) ∧
    ((process_dataset (RunParams.mk false none (some "area") false false)
        (some (Metadata.mk 3 true none none none false false))
        [("/d", ["a.png"])] (fun _ => ImageOutcome.skipped)).processed = [] ∧
     (process_dataset (RunParams.mk false none (some "area") false false)
        (some (Metadata.mk 3 true none none none false false))
        [("/d", ["a.png"])] (fun _ => ImageOutcome.skipped)).metadata_writes = [] ∧
     (process_dataset (RunParams.mk false none (some "area") false false)
        (some (Metadata.mk 3 true none none none false false))
        [("/d", ["a.png"])] (fun _ => ImageOutcome.skipped)).csv = none) :=
  ⟨⟨rfl, rfl⟩, c3_skip_completed _ _ _ _ rfl rfl⟩

/-- Draining appends one row per task whose outcome records a row. -/
theorem drain_pool_from_length (imgs : List String) (outcome : String → ImageOutcome)
    (acc : List SegRow × Bool) :
    (drain_pool_from acc imgs outcome).1.length
      = acc.1.length + (imgs.countP fun x => recordsRow (outcome x)) := by
  induction imgs generalizing acc with
  | nil => simp [drain_pool_from]
  | cons img rest ih =>
    simp only [drain_pool_from, List.countP_cons]
    rw [ih]
    cases h : outcome img <;>
      simp [drain_step, update_segmentation_info, recordsRow, h] <;> omega

/-- Draining flags an error exactly when some task raised. -/
theorem drain_pool_from_errors (imgs : List String) (outcome : String → ImageOutcome)
    (acc : List SegRow × Bool) :
    (drain_pool_from acc imgs outcome).2
      = (acc.2 || imgs.any fun x => raisesError (outcome x)) := by
  induction imgs generalizing acc with
  | nil => simp [drain_pool_from]
  | cons img rest ih =>
    simp only [drain_pool_from, List.any_cons]
    rw [ih]
    cases h : outcome img <;>
      simp [drain_step, raisesError, h, Bool.or_assoc]

/-- C5 (amended).  With one task raising `ImageProcessingError` before its
row append and every other task succeeding, the pool drains all N tasks, the
final descriptor records `num_images = N`, `completed = false` and the
non-null error summary, and the segmentation table holds one row per
successful image — exported exactly when at least one row was recorded (for
N = 1 no table file is written). -/
theorem c5_one_failure_amended (params : RunParams)
    (walk : List (String × List String)) (outcome : String → ImageOutcome)
    (l₁ l₂ : List String) (bad : String)
    (himg : discover_images walk = l₁ ++ bad :: l₂)
    (hgood : ∀ x ∈ l₁ ++ l₂, recordsRow (outcome x) = true ∧ raisesError (outcome x) = false)
    (hbad : outcome bad = ImageOutcome.failBeforeRecord) :
    (process_dataset params none walk outcome).processed = l₁ ++ bad :: l₂ ∧
    (∃ init final,
      (process_dataset params none walk outcome).metadata_writes = [init, final] ∧
        final.num_images = (l₁ ++ bad :: l₂).length ∧ final.completed = false ∧
        final.errors = some error_msg) ∧
    (process_dataset params none walk outcome).errors_occurred = true ∧
    ((l₁ ++ l₂).length = 0 → (process_dataset params none walk outcome).csv = none) ∧
    ((l₁ ++ l₂).length ≠ 0 → ∃ rows,
      (process_dataset params none walk outcome).csv = some rows ∧
        rows.length = (l₁ ++ l₂).length) := by
  have hne : (discover_images walk).isEmpty = false := by
    rw [himg]; cases l₁ <;> rfl
  have hlen : (drain_pool (l₁ ++ bad :: l₂) outcome).1.length = l₁.length + l₂.length := by
    unfold drain_pool
    rw [drain_pool_from_length]
    have h1 : (l₁.countP fun x => recordsRow (outcome x)) = l₁.length :=
      List.countP_eq_length.mpr fun a ha => (hgood a (List.mem_append_left _ ha)).1
    have h2 : (l₂.countP fun x => recordsRow (outcome x)) = l₂.length :=
      List.countP_eq_length.mpr fun a ha => (hgood a (List.mem_append_right _ ha)).1
    rw [List.countP_append, List.countP_cons, h1, h2, hbad]
    simp [recordsRow]
  have herr : (drain_pool (l₁ ++ bad :: l₂) outcome).2 = true := by
    unfold drain_pool
    rw [drain_pool_from_errors]
    simp only [List.any_append, List.any_cons, hbad]
    simp [raisesError]
  unfold process_dataset
  simp only [himg]
  rw [if_neg (by simp)]
  rw [if_neg (by simp)]
  refine ⟨rfl, ⟨_, _, rfl, by simp, by simp [herr], by simp [herr]⟩, herr, ?_, ?_⟩
  · intro h0
    have hempty : (drain_pool (l₁ ++ bad :: l₂) outcome).1.isEmpty = true := by
      rw [List.isEmpty_iff_length_eq_zero, hlen]
      simpa using h0
    simp [hempty]
  · intro h0
    have hempty : (drain_pool (l₁ ++ bad :: l₂) outcome).1.isEmpty = false := by
      rw [List.isEmpty_eq_false, ← List.length_pos_iff_ne_nil, hlen]
      simp only [List.length_append] at h0
      omega
    refine ⟨(drain_pool (l₁ ++ bad :: l₂) outcome).1, ?_, by rw [hlen]; simp⟩
    simp [hempty]

/-- Concrete witness for C5 (amended): one of two images fails; the final
descriptor has `num_images = 2`, `completed = false`, the error summary, and
the exported table has exactly one row. -/
theorem c5_witness :
    (discover_images [("/d", ["a.png", "b.png"])] = ["/d/a.png"] ++ "/d/b.png" :: [] ∧
     (∀ x ∈ (["/d/a.png"] ++ ([] : List String)),
        recordsRow ((fun x => if x = "/d/b.png" then ImageOutcome.failBeforeRecord
          else ImageOutcome.success ["background"]) x) = true ∧
        raisesError ((fun x => if x = "/d/b.png" then ImageOutcome.failBeforeRecord
          else ImageOutcome.success ["background"]) x) = false) ∧
     ((fun x => if x = "/d/b.png" then ImageOutcome.failBeforeRecord
        else ImageOutcome.success ["background"]) "/d/b.png" =
          ImageOutcome.failBeforeRecord)) ∧
    ((process_dataset (RunParams.mk false none (some "area") false false) none
        [("/d", ["a.png", "b.png"])]
        (fun x => if x = "/d/b.png" then ImageOutcome.failBeforeRecord
          else ImageOutcome.success ["background"])).processed
      = ["/d/a.png"] ++ "/d/b.png" :: [] ∧
     (∃ init final,
       (process_dataset (RunParams.mk false none (some "area") false false) none
          [("/d", ["a.png", "b.png"])]
          (fun x => if x = "/d/b.png" then ImageOutcome.failBeforeRecord
            else ImageOutcome.success ["background"])).metadata_writes = [init, final] ∧
         final.num_images = (["/d/a.png"] ++ "/d/b.png" :: []).length ∧
         final.completed = false ∧ final.errors = some error_msg) ∧
     (process_dataset (RunParams.mk false none (some "area") false false) none
        [("/d", ["a.png", "b.png"])]
        (fun x => if x = "/d/b.png" then ImageOutcome.failBeforeRecord
          else ImageOutcome.success ["background"])).errors_occurred = true ∧
     ((["/d/a.png"] ++ ([] : List String)).length = 0 →
       (process_dataset (RunParams.mk false none (some "area") false false) none
          [("/d", ["a.png", "b.png"])]
          (fun x => if x = "/d/b.png" then ImageOutcome.failBeforeRecord
            else ImageOutcome.success ["background"])).csv = none) ∧
     ((["/d/a.png"] ++ ([] : List String)).length ≠ 0 → ∃ rows,
       (process_dataset (RunParams.mk false none (some "area") false false) none
          [("/d", ["a.png", "b.png"])]
          (fun x => if x = "/d/b.png" then ImageOutcome.failBeforeRecord
            else ImageOutcome.success ["background"])).csv = some rows ∧
         rows.length = (["/d/a.png"] ++ ([] : List String)).length)) :=
  ⟨⟨by decide, by decide, by decide⟩,
   c5_one_failure_amended _ _ _ _ _ _ (by decide) (by decide) (by decide)⟩

/-- C5 counterexample.  A batch of N = 1 in which the single image's pipeline
raises: the descriptor is finalized with `completed = false` and the error
summary, but no segmentation table is exported at all — the claim's
"the segmentation table is still exported" fails for N = 1 (the code skips
`save_segmentation_info` when `segmentation_info` is empty, and a row is only
guaranteed absent for the failed image when the failure precedes the row
append). -/
theorem c5_counterexample :
    (process_dataset (RunParams.mk false none (some "area") false false) none
        [("/d", ["a.png"])] (fun _ => ImageOutcome.failBeforeRecord)).errors_occurred = true ∧
    (process_dataset (RunParams.mk false none (some "area") false false) none
        [("/d", ["a.png"])] (fun _ => ImageOutcome.failBeforeRecord)).metadata_writes.length
      = 2 ∧
    (process_dataset (RunParams.mk false none (some "area") false false) none
        [("/d", ["a.png"])] (fun _ => ImageOutcome.failBeforeRecord)).csv = none := by
  decide

/-- C8.  The explicit fatal empty-dataset contract is right as specified
but unimplemented: `Segmenter.__init__`'s first read of an attribute the
`segment` parser never defines (`config.num_workers`) raises
`AttributeError`, so every `segment` invocation — empty dataset or not —
terminates with an uncaught exception (the interpreter exits non-zero)
before any image scanning or metadata write; the empty-dataset handler
inside `process_dataset`, evaluated in isolation at a dataset holding only
`readme.txt`, writes no metadata and merely returns its error flag — which
`cli.main` would discard. -/
theorem c8_empty_dataset_code_bug :
    segmenter_init_first_missing = some "num_workers" ∧
    (∀ (params : RunParams) (existing : Option Metadata)
        (walk : List (String × List String)) (outcome : String → ImageOutcome),
      cli_segment_main params existing walk outcome
        = CliOutcome.raised "AttributeError: Namespace object has no attribute num_workers") ∧
    discover_images [("/d", ["readme.txt"])] = [] ∧
    (process_dataset (RunParams.mk false none (some "area") false false) none
        [("/d", ["readme.txt"])] (fun _ => ImageOutcome.skipped)).metadata_writes = [] ∧
    (process_dataset (RunParams.mk false none (some "area") false false) none
        [("/d", ["readme.txt"])] (fun _ => ImageOutcome.skipped)).csv = none ∧
    (process_dataset (RunParams.mk false none (some "area") false false) none
        [("/d", ["readme.txt"])] (fun _ => ImageOutcome.skipped)).errors_occurred = true :=
  ⟨by decide, fun _ _ _ _ => rfl, by decide, by decide, by decide, by decide⟩

/-! ## Background compositing (`image_processor.remove_background`) -/

/-- A BGR pixel of an 8-bit 3-channel image (channel values 0..255). -/
structure Pix where
  b : Nat
  g : Nat
  r : Nat
deriving DecidableEq

/-- OpenCV's fixed-point BGR→GRAY reduction used by
`cv2.cvtColor(mask, cv2.COLOR_BGR2GRAY)`: coefficients 0.114/0.587/0.299
scaled by 2^14, with rounding. -/
def bgr2gray (p : Pix) : Nat := (1868 * p.b + 9617 * p.g + 4899 * p.r + 8192) / 16384

/-- The mask argument of `remove_background`: single-channel already, or
3-channel and first collapsed by the fixed grayscale reduction
(`len(mask.shape) == 3` branch). -/
inductive MaskArg (α : Type) where
  | single (m : α → Nat) : MaskArg α
  | multi (m : α → Pix) : MaskArg α

/-- The single-channel mask after the (possible) grayscale collapse. -/
def collapse_mask {α : Type} : MaskArg α → (α → Nat)
  | .single m => m
  | .multi m => fun p => bgr2gray (m p)

/-- `cv2.add` on uint8: saturating addition. -/
def satAdd (x y : Nat) : Nat := min (x + y) 255

/-- Channel-wise saturating pixel addition. -/
def pixAdd (p q : Pix) : Pix := ⟨satAdd p.b q.b, satAdd p.g q.g, satAdd p.r q.r⟩

/-- `image_processor.remove_background(image, mask, bg_color)`, pixel-indexed
over an arbitrary index type: build the solid background (white = 255s,
black = 0s, `None` defaulting to black with a warning, anything else a
`ValueError`); threshold the collapsed mask at `> 0` into `mask_binary`;
`bitwise_and(image, image, mask=mask_binary)` keeps the source where the
binary mask is nonzero; `bitwise_not` then `bitwise_and(background,
background, mask=...)` keeps the fill where it is zero; `cv2.add` combines
the two saturatingly. -/
def composite {α : Type} (image : α → Pix) (mask : Option (MaskArg α))
    (background : Pix) : α → Pix :=
  match mask with
  | none => image
  | some m => fun p =>
      let mask_binary : Nat := if collapse_mask m p > 0 then 255 else 0
      pixAdd (if mask_binary ≠ 0 then image p else Pix.mk 0 0 0)
        (if (255 - mask_binary) ≠ 0 then background else Pix.mk 0 0 0)

def remove_background {α : Type} (image : α → Pix) (mask : Option (MaskArg α))
    (bg_color : Option String) : Except String (α → Pix) :=
  let bg := match bg_color with
    | none => "black"
    | some c => c
  if str_lower bg = "white" then .ok (composite image mask (Pix.mk 255 255 255))
  else if str_lower bg = "black" then .ok (composite image mask (Pix.mk 0 0 0))
  else .error "Unsupported background color. Choose 'white' or 'black'."

/-- C6.  `remove_background` is pixel-exact: with a valid color and 8-bit
source pixels, every output pixel equals the source pixel where the
(collapsed) mask is `> 0` and the solid fill elsewhere; hence an all-zero
mask yields the solid fill everywhere and an all-nonzero mask yields the
source image exactly. -/
theorem c6_remove_background_exact {α : Type} (image : α → Pix) (m : MaskArg α) (s : String)
    (hbound : ∀ p, (image p).b ≤ 255 ∧ (image p).g ≤ 255 ∧ (image p).r ≤ 255)
    (hcolor : str_lower s = "white" ∨ str_lower s = "black") :
    ∃ out fill, remove_background image (some m) (some s) = Except.ok out ∧
      ((str_lower s = "white" → fill = Pix.mk 255 255 255) ∧
       (str_lower s = "black" → fill = Pix.mk 0 0 0)) ∧
      (∀ p, out p = if collapse_mask m p > 0 then image p else fill) ∧
      ((∀ p, collapse_mask m p = 0) → ∀ p, out p = fill) ∧
      ((∀ p, 0 < collapse_mask m p) → ∀ p, out p = image p) := by
  have hwb : ¬(("white" : String) = "black") := by decide
  have key : ∀ (fill : Pix), fill.b ≤ 255 → fill.g ≤ 255 → fill.r ≤ 255 → ∀ p,
      composite image (some m) fill p
      = if collapse_mask m p > 0 then image p else fill := by
    intro fill hfb hfg hfr p
    obtain ⟨hib, hig, hir⟩ := hbound p
    show pixAdd (if (if collapse_mask m p > 0 then (255 : Nat) else 0) ≠ 0 then image p
          else Pix.mk 0 0 0)
        (if (255 - (if collapse_mask m p > 0 then (255 : Nat) else 0)) ≠ 0 then fill
          else Pix.mk 0 0 0)
      = if collapse_mask m p > 0 then image p else fill
    by_cases hm : collapse_mask m p > 0
    · rw [if_pos hm, if_pos hm]
      rw [if_pos (by omega), if_neg (by omega)]
      show Pix.mk (min ((image p).b + 0) 255) (min ((image p).g + 0) 255)
          (min ((image p).r + 0) 255) = image p
      have hx : ∀ x : Nat, x ≤ 255 → min (x + 0) 255 = x := fun x hx => by omega
      rw [hx _ hib, hx _ hig, hx _ hir]
    · rw [if_neg hm, if_neg hm]
      rw [if_neg (by omega), if_pos (by omega)]
      show Pix.mk (min (0 + fill.b) 255) (min (0 + fill.g) 255) (min (0 + fill.r) 255) = fill
      have hx : ∀ x : Nat, x ≤ 255 → min (0 + x) 255 = x := fun x hx => by omega
      rw [hx _ hfb, hx _ hfg, hx _ hfr]
  rcases hcolor with hc | hc
  · have hok : remove_background image (some m) (some s)
        = Except.ok (composite image (some m) (Pix.mk 255 255 255)) := by
      show (if str_lower s = "white" then
              Except.ok (composite image (some m) (Pix.mk 255 255 255))
            else if str_lower s = "black" then
              Except.ok (composite image (some m) (Pix.mk 0 0 0))
            else .error "Unsupported background color. Choose 'white' or 'black'.")
          = Except.ok (composite image (some m) (Pix.mk 255 255 255))
      rw [hc]
      rfl
    refine ⟨_, Pix.mk 255 255 255, hok,
      ⟨fun _ => rfl, fun hb => absurd (hc.symm.trans hb) hwb⟩, ?_, ?_, ?_⟩
    · intro p
      exact key (Pix.mk 255 255 255) (by decide) (by decide) (by decide) p
    · intro hz p
      exact (key (Pix.mk 255 255 255) (by decide) (by decide) (by decide) p).trans
        (by rw [hz p]; simp)
    · intro hnz p
      exact (key (Pix.mk 255 255 255) (by decide) (by decide) (by decide) p).trans
        (if_pos (hnz p))
  · have hok : remove_background image (some m) (some s)
        = Except.ok (composite image (some m) (Pix.mk 0 0 0)) := by
      show (if str_lower s = "white" then
              Except.ok (composite image (some m) (Pix.mk 255 255 255))
            else if str_lower s = "black" then
              Except.ok (composite image (some m) (Pix.mk 0 0 0))
            else .error "Unsupported background color. Choose 'white' or 'black'.")
          = Except.ok (composite image (some m) (Pix.mk 0 0 0))
      rw [hc, if_neg (fun h => hwb h.symm)]
      rfl
    refine ⟨_, Pix.mk 0 0 0, hok, ?_, ?_, ?_, ?_⟩
    · exact ⟨fun hb => absurd (hc.symm.trans hb) (fun h => hwb h.symm), fun _ => rfl⟩
    · intro p
      exact key (Pix.mk 0 0 0) (by decide) (by decide) (by decide) p
    · intro hz p
      exact (key (Pix.mk 0 0 0) (by decide) (by decide) (by decide) p).trans
        (by rw [hz p]; simp)
    · intro hnz p
      exact (key (Pix.mk 0 0 0) (by decide) (by decide) (by decide) p).trans
        (if_pos (hnz p))

/-- Concrete witness for C6 at a one-pixel image with a nonzero
single-channel mask and white fill. -/
theorem c6_witness :
    ((∀ p : Unit, ((fun _ : Unit => Pix.mk 10 20 30) p).b ≤ 255 ∧
        ((fun _ : Unit => Pix.mk 10 20 30) p).g ≤ 255 ∧
        ((fun _ : Unit => Pix.mk 10 20 30) p).r ≤ 255) ∧
      (str_lower "white" = "white" ∨ str_lower "white" = "black")) ∧
    (∃ out fill,
      remove_background (fun _ : Unit => Pix.mk 10 20 30)
          (some (MaskArg.single fun _ : Unit => (7 : Nat))) (some "white") = Except.ok out ∧
      ((str_lower "white" = "white" → fill = Pix.mk 255 255 255) ∧
       (str_lower "white" = "black" → fill = Pix.mk 0 0 0)) ∧
      (∀ p : Unit, out p = if collapse_mask (MaskArg.single fun _ : Unit => (7 : Nat)) p > 0
        then (fun _ : Unit => Pix.mk 10 20 30) p else fill) ∧
      ((∀ p : Unit, collapse_mask (MaskArg.single fun _ : Unit => (7 : Nat)) p = 0) →
        ∀ p : Unit, out p = fill) ∧
      ((∀ p : Unit, 0 < collapse_mask (MaskArg.single fun _ : Unit => (7 : Nat)) p) →
        ∀ p : Unit, out p = (fun _ : Unit => Pix.mk 10 20 30) p)) :=
  ⟨⟨fun _ => (by decide : (Pix.mk 10 20 30).b ≤ 255 ∧ (Pix.mk 10 20 30).g ≤ 255 ∧
      (Pix.mk 10 20 30).r ≤ 255), Or.inl (by decide)⟩,
   c6_remove_background_exact _ _ _
     (fun _ => (by decide : (Pix.mk 10 20 30).b ≤ 255 ∧ (Pix.mk 10 20 30).g ≤ 255 ∧
       (Pix.mk 10 20 30).r ≤ 255))
     (Or.inl (by decide))⟩

/-! ## Crop extraction (`image_processor.crop_and_save_by_class`)

`cv2.findContours(class_mask, cv2.RETR_EXTERNAL, ...)` returns one external
contour per 8-connected component of the nonzero pixels, and
`cv2.boundingRect` of such a contour is the component's axis-aligned bounding
rectangle; we model the component list directly by an executable connected
component search over the grid. -/

/-- A per-pixel class-id mask as a rectangular grid; cell (i, j) reads row i,
column j, with 0 (background) outside the stored grid. -/
structure Grid where
  rows : List (List Nat)
deriving DecidableEq

def Grid.height (g : Grid) : Nat := g.rows.length

def Grid.width (g : Grid) : Nat := (g.rows.headD []).length

def Grid.cell (g : Grid) (i j : Nat) : Nat := (g.rows.getD i []).getD j 0

/-- All cells (row, column) holding class id `c`. -/
def cellsOfClass (g : Grid) (c : Nat) : List (Nat × Nat) :=
  (List.range g.height).flatMap fun i =>
    ((List.range g.width).filter fun j => g.cell i j == c).map fun j => (i, j)

/-- `a` and `b` differ by at most one. -/
def near (a b : Nat) : Bool := a == b || a == b + 1 || b == a + 1

/-- 8-connectivity adjacency of two distinct cells. -/
def adj8 (p q : Nat × Nat) : Bool :=
  !(p == q) && near p.1 q.1 && near p.2 q.2

/-- Grow a component inside `cells` until no adjacent fresh cell remains. -/
def floodFill : Nat → List (Nat × Nat) → List (Nat × Nat) → List (Nat × Nat)
  | 0, _, comp => comp
  | fuel + 1, cells, comp =>
    let fresh := cells.filter fun q => !(comp.contains q) && comp.any fun p => adj8 p q
    if fresh.isEmpty then comp else floodFill fuel cells (comp ++ fresh)

/-- Split a cell list into its 8-connected components, in first-cell order. -/
def componentsAux : Nat → List (Nat × Nat) → List (List (Nat × Nat))
  | 0, _ => []
  | _ + 1, [] => []
  | fuel + 1, c :: rest =>
    let comp := floodFill (c :: rest).length (c :: rest) [c]
    comp :: componentsAux fuel (rest.filter fun q => !(comp.contains q))

/-- The 8-connected components of class `c` in the mask — the model of the
external contours `cv2.findContours` reports for the class's binary mask. -/
def components (mask : Grid) (c : Nat) : List (List (Nat × Nat)) :=
  componentsAux (cellsOfClass mask c).length (cellsOfClass mask c)

/-- `cv2.boundingRect` of a component: `(x, y, w, h)` with `x`/`y` the least
column/row and `w`/`h` the extents. -/
def boundingRect (comp : List (Nat × Nat)) : Nat × Nat × Nat × Nat :=
  let is := comp.map Prod.fst
  let js := comp.map Prod.snd
  let x := (js.min?).getD 0
  let y := (is.min?).getD 0
  let w := (js.max?).getD 0 + 1 - x
  let h := (is.max?).getD 0 + 1 - y
  (x, y, w, h)

/-- The padding/clamping arithmetic of `crop_and_save_by_class` (padding is
the fixed 0): `x = max(x - padding, 0)`, `w = min(w + 2*padding,
image.shape[1] - x)`, and likewise for `y`/`h`. -/
def clampRect (imgH imgW x y w h : Nat) : Nat × Nat × Nat × Nat :=
  let padding := 0
  let x := max (x - padding) 0
  let y := max (y - padding) 0
  let w := min (w + 2 * padding) (imgW - x)
  let h := min (h + 2 * padding) (imgH - y)
  (x, y, w, h)

/-- `arr[y:y+h, x:x+w]` of a function-indexed 2-D array, materialized. -/
def slice2d {β : Type} (arr : Nat → Nat → β) (y x h w : Nat) : List (List β) :=
  (List.range h).map fun i => (List.range w).map fun j => arr (y + i) (x + j)

/-- Python's `os.path.splitext(s)[0]`: the path with the extension of its
basename removed (a dot leading the basename does not start an extension). -/
def splitext_root (s : String) : String :=
  let cs := s.data.reverse
  let baseRev := cs.takeWhile (· ≠ '/')
  let k := (baseRev.takeWhile (· ≠ '.')).length
  if k + 1 < baseRev.length then String.mk ((cs.drop (k + 1)).reverse) else s

/-- The crop file path:
`os.path.splitext(os.path.join(crops_dir, class_name, relative_path))[0]
 + '_' + class_name + '.png'` — a function of the class name and the image's
relative path only, not of the connected component. -/
def crop_save_path (crops_dir class_name relative_path : String) : String :=
  splitext_root (path_join crops_dir (path_join class_name relative_path))
    ++ "_" ++ class_name ++ ".png"

/-- One `cv2.imwrite` into the crops tree: the destination path, the clamped
rectangle, and the image and class-mask slices written. -/
structure CropWrite (β : Type) where
  path : String
  x : Nat
  y : Nat
  w : Nat
  h : Nat
  cropped_image : List (List β)
  cropped_mask : List (List Nat)
deriving DecidableEq

/-- The body of the per-contour loop of `crop_and_save_by_class`: bound the
component, pad and clamp the rectangle, and slice both the image and the
class's binary mask (255 on the class, 0 elsewhere) to it. -/
def cropOfComponent {β : Type} (crops_dir : String) (image : Nat → Nat → β)
    (mask : Grid) (relative_path : String) (cid : Nat) (class_name : String)
    (comp : List (Nat × Nat)) : CropWrite β :=
  let r0 := boundingRect comp
  let r := clampRect mask.height mask.width r0.1 r0.2.1 r0.2.2.1 r0.2.2.2
  { path := crop_save_path crops_dir class_name relative_path,
    x := r.1, y := r.2.1, w := r.2.2.1, h := r.2.2.2,
    cropped_image := slice2d image r.2.1 r.1 r.2.2.2 r.2.2.1,
    cropped_mask := slice2d (fun i j => if mask.cell i j = cid then 255 else 0)
      r.2.1 r.1 r.2.2.2 r.2.2.1 }

/-- The inner loop of `crop_and_save_by_class` for one class: one crop per
external-boundary connected component. -/
def cropsForClass {β : Type} (crops_dir : String) (image : Nat → Nat → β)
    (mask : Grid) (relative_path : String) (cid : Nat) (class_name : String) :
    List (CropWrite β) :=
  (components mask cid).map
    (cropOfComponent crops_dir image mask relative_path cid class_name)

/-- `image_processor.crop_and_save_by_class`: iterate the fixed vocabulary,
skip the background class, and emit the crops of every class in order. -/
def crop_and_save_by_class {β : Type} (crops_dir : String) (image : Nat → Nat → β)
    (mask : Grid) (relative_path : String) : List (CropWrite β) :=
  (CLASSES.filter fun c => c.1 != 0).flatMap fun c =>
    cropsForClass crops_dir image mask relative_path c.1 c.2

/-- Reading a materialized slice inside its extent reads the source array at
the offset position; outside, the default. -/
theorem slice2d_getD_eq {β : Type} (arr : Nat → Nat → β) (y x h w i j : Nat) (d : β) :
    (((slice2d arr y x h w).getD i []).getD j d)
      = if i < h ∧ j < w then arr (y + i) (x + j) else d := by
  by_cases hi : i < h
  · by_cases hj : j < w
    · rw [if_pos ⟨hi, hj⟩]
      simp [slice2d, List.getD_eq_getElem?_getD, List.getElem?_map, List.getElem?_range, hi, hj]
    · rw [if_neg (fun hc => hj hc.2)]
      have hn : (List.range w)[j]? = none :=
        List.getElem?_eq_none (by simpa using Nat.le_of_not_lt hj)
      simp [slice2d, List.getD_eq_getElem?_getD, List.getElem?_map, List.getElem?_range, hi, hn]
  · rw [if_neg (fun hc => hi hc.1)]
    have hn : (List.range h)[i]? = none :=
      List.getElem?_eq_none (by simpa using Nat.le_of_not_lt hi)
    simp [slice2d, List.getD_eq_getElem?_getD, List.getElem?_map, hn]

/-- C7.  A class mask with exactly two disjoint, non-touching regions of a
non-background class yields exactly two crops for that class — one per
external-boundary connected component, the rectangle clamped to image
bounds — and each crop's sub-mask marks only that class: every nonzero
sub-mask pixel is 255 and sits on a mask cell of exactly that class. -/
theorem c7_two_components_two_crops {β : Type} (crops_dir : String)
    (image : Nat → Nat → β) (mask : Grid) (relative_path : String)
    (cid : Nat) (class_name : String)
    (h2 : (components mask cid).length = 2)
    (hmem : (cid, class_name) ∈ CLASSES) (hc0 : cid ≠ 0) :
    (cropsForClass crops_dir image mask relative_path cid class_name).length = 2 ∧
    (∀ cw ∈ cropsForClass crops_dir image mask relative_path cid class_name,
      cw ∈ crop_and_save_by_class crops_dir image mask relative_path) ∧
    (∀ cw ∈ cropsForClass crops_dir image mask relative_path cid class_name,
      cw.w ≤ mask.width - cw.x ∧ cw.h ≤ mask.height - cw.y) ∧
    (∀ cw ∈ cropsForClass crops_dir image mask relative_path cid class_name,
      ∀ i j, ((cw.cropped_mask.getD i []).getD j 0) ≠ 0 →
        mask.cell (cw.y + i) (cw.x + j) = cid ∧
        ((cw.cropped_mask.getD i []).getD j 0) = 255) := by
  have hmaskGetD : ∀ (comp : List (Nat × Nat)) (i j : Nat),
      (((cropOfComponent crops_dir image mask relative_path cid class_name comp).cropped_mask.getD
          i []).getD j 0)
        = if i < (cropOfComponent crops_dir image mask relative_path cid class_name comp).h ∧
            j < (cropOfComponent crops_dir image mask relative_path cid class_name comp).w
          then (if mask.cell
              ((cropOfComponent crops_dir image mask relative_path cid class_name comp).y + i)
              ((cropOfComponent crops_dir image mask relative_path cid class_name comp).x + j)
              = cid then 255 else 0)
          else 0 :=
    fun comp i j => by
      simp only [cropOfComponent]
      exact slice2d_getD_eq _ _ _ _ _ _ _ _
  refine ⟨?_, ?_, ?_, ?_⟩
  · simp only [cropsForClass, List.length_map, h2]
  · intro cw hcw
    exact List.mem_flatMap.mpr ⟨(cid, class_name),
      List.mem_filter.mpr ⟨hmem, by simpa using hc0⟩, hcw⟩
  · intro cw hcw
    rcases List.mem_map.mp hcw with ⟨comp, _, hcw_eq⟩
    subst hcw_eq
    exact ⟨min_le_right _ _, min_le_right _ _⟩
  · intro cw hcw i j hval
    rcases List.mem_map.mp hcw with ⟨comp, _, hcw_eq⟩
    subst hcw_eq
    rw [hmaskGetD comp i j] at hval ⊢
    by_cases hb : i < (cropOfComponent crops_dir image mask relative_path cid class_name comp).h ∧
        j < (cropOfComponent crops_dir image mask relative_path cid class_name comp).w
    · rw [if_pos hb] at hval ⊢
      by_cases hcell : mask.cell
          ((cropOfComponent crops_dir image mask relative_path cid class_name comp).y + i)
          ((cropOfComponent crops_dir image mask relative_path cid class_name comp).x + j) = cid
      · exact ⟨hcell, if_pos hcell⟩
      · exact absurd (if_neg hcell) hval
    · rw [if_neg hb] at hval
      exact absurd rfl hval

/-- Concrete witness for C7: a 3×3 mask with two diagonal, non-touching cells
of class 1 produces exactly two crops. -/
theorem c7_witness :
    ((components (Grid.mk [[1, 0, 0], [0, 0, 0], [0, 0, 1]]) 1).length = 2 ∧
      ((1 : Nat), "class_1") ∈ CLASSES ∧ (1 : Nat) ≠ 0) ∧
    ((cropsForClass "/out/crops" (fun _ _ => (0 : Nat))
        (Grid.mk [[1, 0, 0], [0, 0, 0], [0, 0, 1]]) "img.png" 1 "class_1").length = 2 ∧
     (∀ cw ∈ cropsForClass "/out/crops" (fun _ _ => (0 : Nat))
        (Grid.mk [[1, 0, 0], [0, 0, 0], [0, 0, 1]]) "img.png" 1 "class_1",
       cw ∈ crop_and_save_by_class "/out/crops" (fun _ _ => (0 : Nat))
        (Grid.mk [[1, 0, 0], [0, 0, 0], [0, 0, 1]]) "img.png") ∧
     (∀ cw ∈ cropsForClass "/out/crops" (fun _ _ => (0 : Nat))
        (Grid.mk [[1, 0, 0], [0, 0, 0], [0, 0, 1]]) "img.png" 1 "class_1",
       cw.w ≤ (Grid.mk [[1, 0, 0], [0, 0, 0], [0, 0, 1]]).width - cw.x ∧
       cw.h ≤ (Grid.mk [[1, 0, 0], [0, 0, 0], [0, 0, 1]]).height - cw.y) ∧
     (∀ cw ∈ cropsForClass "/out/crops" (fun _ _ => (0 : Nat))
        (Grid.mk [[1, 0, 0], [0, 0, 0], [0, 0, 1]]) "img.png" 1 "class_1",
       ∀ i j, ((cw.cropped_mask.getD i []).getD j 0) ≠ 0 →
         (Grid.mk [[1, 0, 0], [0, 0, 0], [0, 0, 1]]).cell (cw.y + i) (cw.x + j) = 1 ∧
         ((cw.cropped_mask.getD i []).getD j 0) = 255)) :=
  ⟨⟨by decide, by decide, by decide⟩,
   c7_two_components_two_crops _ _ _ _ _ _ (by decide) (by decide) (by decide)⟩

/-! ## Crop file overwrites (C10) -/

/-- Replaying a sequence of `cv2.imwrite` calls over a file-system map:
each write replaces the file at its path. -/
def apply_writes {β : Type} (ws : List (CropWrite β))
    (fs : String → Option (List (List β) × List (List Nat))) :
    String → Option (List (List β) × List (List Nat)) :=
  ws.foldl
    (fun acc w => fun q =>
      if q = w.path then some (w.cropped_image, w.cropped_mask) else acc q)
    fs

/-- After replaying writes that all target `path`, the file at `path` holds
the last write's content. -/
theorem apply_writes_getLast? {β : Type} (ws : List (CropWrite β)) (path : String) :
    ∀ fs0, (∀ w ∈ ws, w.path = path) →
      (ws = [] ∧ apply_writes ws fs0 path = fs0 path) ∨
      (∃ wlast, ws.getLast? = some wlast ∧
        apply_writes ws fs0 path = some (wlast.cropped_image, wlast.cropped_mask)) := by
  induction ws with
  | nil => exact fun fs0 _ => Or.inl ⟨rfl, rfl⟩
  | cons w rest ih =>
    intro fs0 hpath
    rcases ih (fun q => if q = w.path then some (w.cropped_image, w.cropped_mask) else fs0 q)
        (fun v hv => hpath v (List.mem_cons_of_mem w hv)) with ⟨hrest, heq⟩ | ⟨wl, hwl, heq⟩
    · refine Or.inr ⟨w, ?_, ?_⟩
      · rw [hrest]; rfl
      · show apply_writes rest _ path = _
        rw [heq, if_pos (hpath w (List.mem_cons_self w rest)).symm]
    · refine Or.inr ⟨wl, ?_, heq⟩
      cases rest with
      | nil => exact absurd hwl (by simp)
      | cons w2 rest2 => rw [List.getLast?_cons_cons]; exact hwl

/-- Replayed writes leave every other path untouched. -/
theorem apply_writes_other {β : Type} (ws : List (CropWrite β)) (p : String) :
    ∀ fs0, (∀ w ∈ ws, p ≠ w.path) → apply_writes ws fs0 p = fs0 p := by
  induction ws with
  | nil => exact fun _ _ => rfl
  | cons w rest ih =>
    intro fs0 hp
    show apply_writes rest _ p = _
    rw [ih _ (fun v hv => hp v (List.mem_cons_of_mem w hv))]
    exact if_neg (hp w (List.mem_cons_self w rest))

/-- C10.  The crop file path depends only on the class name and the image's
relative path, never on the connected component: every crop of one class in
one image is written to the same path, the component iterated last overwrites
the earlier ones, and no other path is touched — at most one crop file per
(class, image) pair remains. -/
theorem c10_crop_path_overwrite {β : Type} (crops_dir : String) (image : Nat → Nat → β)
    (mask : Grid) (relative_path : String) (cid : Nat) (class_name : String)
    (fs0 : String → Option (List (List β) × List (List Nat)))
    (hne : cropsForClass crops_dir image mask relative_path cid class_name ≠ []) :
    (∀ cw ∈ cropsForClass crops_dir image mask relative_path cid class_name,
      cw.path = crop_save_path crops_dir class_name relative_path) ∧
    (∃ wlast,
      (cropsForClass crops_dir image mask relative_path cid class_name).getLast?
        = some wlast ∧
      apply_writes (cropsForClass crops_dir image mask relative_path cid class_name) fs0
          (crop_save_path crops_dir class_name relative_path)
        = some (wlast.cropped_image, wlast.cropped_mask)) ∧
    (∀ p, p ≠ crop_save_path crops_dir class_name relative_path →
      apply_writes (cropsForClass crops_dir image mask relative_path cid class_name) fs0 p
        = fs0 p) := by
  have hpath : ∀ cw ∈ cropsForClass crops_dir image mask relative_path cid class_name,
      cw.path = crop_save_path crops_dir class_name relative_path := by
    intro cw hcw
    rcases List.mem_map.mp hcw with ⟨comp, _, hcw_eq⟩
    subst hcw_eq
    rfl
  refine ⟨hpath, ?_, ?_⟩
  · rcases apply_writes_getLast? _ _ fs0 hpath with ⟨hnil, _⟩ | h
    · exact absurd hnil hne
    · exact h
  · intro p hp
    exact apply_writes_other _ _ fs0 fun w hw => fun hc => hp (hc.trans (hpath w hw))

/-- Concrete witness for C10: a class with two components in one image leaves
exactly the last component's crop at the single shared path. -/
theorem c10_witness :
    (cropsForClass "/out/crops" (fun _ _ => (0 : Nat))
        (Grid.mk [[2, 0, 0], [0, 0, 0], [0, 0, 2]]) "a/b.png" 2 "class_2" ≠ []) ∧
    ((∀ cw ∈ cropsForClass "/out/crops" (fun _ _ => (0 : Nat))
        (Grid.mk [[2, 0, 0], [0, 0, 0], [0, 0, 2]]) "a/b.png" 2 "class_2",
       cw.path = crop_save_path "/out/crops" "class_2" "a/b.png") ∧
     (∃ wlast,
       (cropsForClass "/out/crops" (fun _ _ => (0 : Nat))
          (Grid.mk [[2, 0, 0], [0, 0, 0], [0, 0, 2]]) "a/b.png" 2 "class_2").getLast?
         = some wlast ∧
       apply_writes (cropsForClass "/out/crops" (fun _ _ => (0 : Nat))
            (Grid.mk [[2, 0, 0], [0, 0, 0], [0, 0, 2]]) "a/b.png" 2 "class_2")
          (fun _ => none) (crop_save_path "/out/crops" "class_2" "a/b.png")
         = some (wlast.cropped_image, wlast.cropped_mask)) ∧
     (∀ p, p ≠ crop_save_path "/out/crops" "class_2" "a/b.png" →
       apply_writes (cropsForClass "/out/crops" (fun _ _ => (0 : Nat))
            (Grid.mk [[2, 0, 0], [0, 0, 0], [0, 0, 2]]) "a/b.png" 2 "class_2")
          (fun _ => none) p = none)) :=
  ⟨by decide, c10_crop_path_overwrite _ _ _ _ _ _ _ (by decide)⟩

/-! ## Run scanning (`run_scanner.scan_runs`) -/

/-- The state of a candidate run directory's `metadata.json` as the scanner
finds it: absent, present but not valid JSON, or parsed. -/
inductive DescriptorFile where
  | missing : DescriptorFile
  | malformed : DescriptorFile
  | parsed (m : Metadata) : DescriptorFile
deriving DecidableEq

/-- The "Resize Dims" column: `f"{a}x{a}"` / `f"{a}x{b}"` for a 1- or
2-element list, `str(...)` otherwise (`metadata.json` always carries the
`size` key, possibly null, so `str(None)` renders for no resizing). -/
def resize_dims_str (size : Option (List Nat)) : String :=
  match size with
  | none => "None"
  | some [a] => toString a ++ "x" ++ toString a
  | some [a, b] => toString a ++ "x" ++ toString b
  | some l => "[" ++ String.intercalate ", " (l.map toString) ++ "]"

/-- Split a character list at underscores (`str.split('_')`). -/
def splitUnderscoreAux : List Char → List Char → List (List Char)
  | [], acc => [acc.reverse]
  | c :: rest, acc =>
    if c = '_' then acc.reverse :: splitUnderscoreAux rest []
    else splitUnderscoreAux rest (c :: acc)

/-- `os.path.basename(run_dir).split('_')[-1][:8]`: the truncated run-UUID
column. -/
def uuid_prefix (run_dir : String) : String :=
  String.mk (((splitUnderscoreAux (basename run_dir).data []).getLastD []).take 8)

/-- One row of the report table (the nine `table.add_row` column values). -/
structure ScanRow where
  cols : List String
deriving DecidableEq

/-- The distinct row emitted for a directory with no `metadata.json`. -/
def missing_row (idx : Nat) : ScanRow :=
  ⟨[toString idx, "Missing metadata.json", "", "", "", "", "", "", ""]⟩

/-- The row tabulating one parsed descriptor. -/
def metadata_row (idx : Nat) (run_dir : String) (m : Metadata) : ScanRow :=
  ⟨[toString idx,
    uuid_prefix run_dir,
    if m.completed then "Yes" else "No",
    toString m.num_images,
    resize_dims_str m.size,
    (match m.interpolation with | none => "None" | some s => s),
    if m.save_intermediates then "Yes" else "No",
    if m.visualize_segmentation then "Yes" else "No",
    (match m.errors with | none => "None" | some e => e)]⟩

/-- The scanner's per-directory loop (`enumerate(run_dirs, 1)`): a missing
descriptor contributes its distinct row and the loop continues; a malformed
one raises out of `json.load` — no handler exists, the scan aborts; a parsed
one is tabulated. -/
def scanAux : Nat → List (String × DescriptorFile) → Except String (List ScanRow)
  | _, [] => .ok []
  | idx, (run_dir, df) :: rest =>
    match df with
    | .missing =>
      match scanAux (idx + 1) rest with
      | .ok rows => .ok (missing_row idx :: rows)
      | .error e => .error e
    | .malformed =>
      .error ("json.decoder.JSONDecodeError while parsing " ++ run_dir ++ "/metadata.json")
    | .parsed m =>
      match scanAux (idx + 1) rest with
      | .ok rows => .ok (metadata_row idx run_dir m :: rows)
      | .error e => .error e

/-- `run_scanner.scan_runs` over the default placement: walk the candidate
run directories with a 1-based index and build the report table.  The
function only reads descriptor files and returns rows; it writes nothing. -/
def scan_runs (run_dirs : List (String × DescriptorFile)) : Except String (List ScanRow) :=
  scanAux 1 run_dirs

/-- C9 counterexample.  One malformed `metadata.json` aborts the whole scan
with the uncaught JSON parse error instead of yielding a row: only a
*missing* descriptor is tolerated. -/
theorem c9_counterexample :
    scan_runs
      [("/out/wings_aaaa", DescriptorFile.parsed (Metadata.mk 3 true none none none false false)),
       ("/out/wings_bbbb", DescriptorFile.malformed)]
      = .error "json.decoder.JSONDecodeError while parsing /out/wings_bbbb/metadata.json" := by
  rfl

theorem scanAux_ok (dirs : List (String × DescriptorFile)) :
    ∀ start, (∀ d ∈ dirs, d.2 ≠ DescriptorFile.malformed) →
    ∃ rows, scanAux start dirs = .ok rows ∧ rows.length = dirs.length ∧
      ∀ (i : Nat) (d : String × DescriptorFile), dirs[i]? = some d →
        (d.2 = DescriptorFile.missing → rows[i]? = some (missing_row (start + i))) ∧
        (∀ m, d.2 = DescriptorFile.parsed m →
          rows[i]? = some (metadata_row (start + i) d.1 m)) := by
  induction dirs with
  | nil =>
    intro start _
    exact ⟨[], rfl, rfl, fun i d hd => absurd hd (by simp)⟩
  | cons hd tl ih =>
    intro start hok
    obtain ⟨dir, df⟩ := hd
    obtain ⟨rows, hr, hlen, hspec⟩ :=
      ih (start + 1) fun d hd => hok d (List.mem_cons_of_mem _ hd)
    cases df with
    | malformed =>
      exact absurd rfl (hok (dir, .malformed) (List.mem_cons_self _ _))
    | missing =>
      refine ⟨missing_row start :: rows, ?_, by simpa using hlen, ?_⟩
      · show (match scanAux (start + 1) tl with
          | .ok rows => Except.ok (missing_row start :: rows)
          | .error e => Except.error e) = _
        rw [hr]
      · intro i d hd
        cases i with
        | zero =>
          simp only [List.getElem?_cons_zero, Option.some.injEq] at hd
          subst hd
          exact ⟨fun _ => by simp, fun m hm => by exact absurd hm (by simp)⟩
        | succ i' =>
          simp only [List.getElem?_cons_succ] at hd ⊢
          have := hspec i' d hd
          constructor
          · intro hm
            rw [(this.1 hm)]
            have : start + 1 + i' = start + (i' + 1) := by omega
            rw [this]
          · intro m hm
            rw [(this.2 m hm)]
            have : start + 1 + i' = start + (i' + 1) := by omega
            rw [this]
    | parsed m0 =>
      refine ⟨metadata_row start dir m0 :: rows, ?_, by simpa using hlen, ?_⟩
      · show (match scanAux (start + 1) tl with
          | .ok rows => Except.ok (metadata_row start dir m0 :: rows)
          | .error e => Except.error e) = _
        rw [hr]
      · intro i d hd
        cases i with
        | zero =>
          simp only [List.getElem?_cons_zero, Option.some.injEq] at hd
          subst hd
          refine ⟨fun hm => absurd hm (by simp), fun m hm => ?_⟩
          simp only at hm
          cases hm
          simp
        | succ i' =>
          simp only [List.getElem?_cons_succ] at hd ⊢
          have := hspec i' d hd
          constructor
          · intro hm
            rw [(this.1 hm)]
            have : start + 1 + i' = start + (i' + 1) := by omega
            rw [this]
          · intro m hm
            rw [(this.2 m hm)]
            have : start + 1 + i' = start + (i' + 1) := by omega
            rw [this]

/-- C9 (amended).  When no descriptor file is malformed, the scan completes
with exactly one report row per candidate directory — a missing
`metadata.json` rendered as the distinct "Missing metadata.json" row at its
1-based index, a parsed one tabulated — and the scanner (a pure read of the
descriptors into a table) mutates no run state; a malformed descriptor,
however, aborts the scan with the uncaught JSON parse error. -/
theorem c9_scan_amended (run_dirs : List (String × DescriptorFile))
    (hok : ∀ d ∈ run_dirs, d.2 ≠ DescriptorFile.malformed) :
    ∃ rows, scan_runs run_dirs = .ok rows ∧ rows.length = run_dirs.length ∧
      ∀ (i : Nat) (d : String × DescriptorFile), run_dirs[i]? = some d →
        (d.2 = DescriptorFile.missing → rows[i]? = some (missing_row (1 + i))) ∧
        (∀ m, d.2 = DescriptorFile.parsed m →
          rows[i]? = some (metadata_row (1 + i) d.1 m)) :=
  scanAux_ok run_dirs 1 hok

/-- Concrete witness for C9 (amended): one missing and one parsed descriptor
scan to exactly two rows. -/
theorem c9_witness :
    (∀ d ∈ [("/out/wings_aaaa", DescriptorFile.missing),
        ("/out/wings_bbbb", DescriptorFile.parsed (Metadata.mk 3 true none none none false false))],
      d.2 ≠ DescriptorFile.malformed) ∧
    (∃ rows, scan_runs [("/out/wings_aaaa", DescriptorFile.missing),
        ("/out/wings_bbbb", DescriptorFile.parsed (Metadata.mk 3 true none none none false false))]
        = .ok rows ∧
      rows.length = [("/out/wings_aaaa", DescriptorFile.missing),
        ("/out/wings_bbbb",
          DescriptorFile.parsed (Metadata.mk 3 true none none none false false))].length ∧
      ∀ (i : Nat) (d : String × DescriptorFile),
        [("/out/wings_aaaa", DescriptorFile.missing),
         ("/out/wings_bbbb",
           DescriptorFile.parsed (Metadata.mk 3 true none none none false false))][i]? = some d →
        (d.2 = DescriptorFile.missing → rows[i]? = some (missing_row (1 + i))) ∧
        (∀ m, d.2 = DescriptorFile.parsed m →
          rows[i]? = some (metadata_row (1 + i) d.1 m))) :=
  ⟨by decide, c9_scan_amended _ (by decide)⟩

end WingSeg
